import Mathlib

/-!
Verification of `DataService` (src/data_service.py), a thin client for the
Trading Strategy HTTP API.  The development shallowly embeds the two methods
the claims are about:

* `get_ohlcv_candles` — builds a `candles-jsonl` GET URL from its parameters,
  issues the request with `stream=True`, reads the response body as
  line-delimited JSON objects, groups the records by their `p` field into an
  insertion-ordered dictionary (`collections.defaultdict(list)`), and
  materializes one DataFrame per pair id from the `ts`/`o`/`h`/`l`/`c`/`v`
  fields, with the index converted by `pd.to_datetime(ts, unit="s")`.
* `get_chain_data` — reads a JSON array of chain objects and builds a
  DataFrame of `chain_name`/`chain_slug` columns indexed by `chain_id`.

JSON values are modelled by `JVal`; numeric payloads (timestamps, prices,
volumes) are carried uninterpreted as integers or strings since the source
never computes with them, only copies them.  A JSON object is an association
list with first-match lookup (`jlookup`), and Python's `item["k"]` access is
modelled as an `Except`-raising lookup (`KeyError` on a missing key).
The `jsonlines` reader is modelled at the level of its output: a list of
already-decoded objects.  Insertion-ordered Python dicts are modelled as
association lists.
-/

/-- A JSON scalar value as it appears in the API responses. Numbers are
carried uninterpreted (the source never does arithmetic on them). -/
inductive JVal where
  | jnum (n : Int)
  | jstr (s : String)
deriving DecidableEq, Repr

/-- A decoded JSON object: an association list of field names to values.
Python dict field access is first-match lookup. -/
abbrev JObj := List (String × JVal)

/-- Field lookup in a JSON object, modelling `obj.get(f)`: `none` when the
field is absent. -/
def jlookup : JObj → String → Option JVal
  | [], _ => none
  | (f', v) :: rest, f => if f' = f then some v else jlookup rest f

/-- Errors the embedded code can raise: `keyError f` models Python's
`KeyError` on subscripting a dict missing field `f`; `transportError` models
`requests` raising on a failed connection. -/
inductive PyErr where
  | keyError (key : String)
  | transportError
deriving DecidableEq, Repr

/-- A pair identifier argument: the source accepts `list[int|str]`. -/
inductive PairId where
  | pint (n : Int)
  | pstr (s : String)
deriving DecidableEq, Repr

/-- Python `str` applied to a pair id (used by `",".join(map(str, pair_ids))`). -/
def pyStr : PairId → String
  | .pint n => toString n
  | .pstr s => s

/-- The result of `pd.to_datetime(x, unit="s")` on one timestamp value: an
opaque point-in-time wrapper around the UNIX-seconds value (the conversion is
injective; nothing downstream inspects it). -/
structure PdTimestamp where
  unixSeconds : JVal
deriving DecidableEq, Repr

/-- The DataFrame built for one pair id: the `pd.to_datetime` index plus the
five OHLCV columns, in the column order of the source. -/
structure CandleDF where
  index : List PdTimestamp
  Open : List JVal
  High : List JVal
  Low : List JVal
  Close : List JVal
  Volume : List JVal
deriving DecidableEq, Repr

/-- Python expression of line 139 of the source: the comma-join of the
stringified pair ids. -/
def pair_ids_string (pair_ids : List PairId) : String :=
  String.intercalate "," (pair_ids.map pyStr)

/-- Default value of the `time_bucket` parameter of `get_ohlcv_candles`. -/
def default_time_bucket : String := "15m"

/-- Default value of the `max_bytes` parameter of `get_ohlcv_candles`. -/
def default_max_bytes : Nat := 250000000

/-- The f-string of line 140:
`f"candles-jsonl?pair_ids={pair_ids_string}&time_bucket={time_bucket}&start={start_time}&end={end_time}&max_bytes={max_bytes}"`. -/
def candles_api_extension (pair_ids : List PairId) (start_time end_time : String)
    (time_bucket : String) (max_bytes : Nat) : String :=
  "candles-jsonl?pair_ids=" ++ pair_ids_string pair_ids ++
    "&time_bucket=" ++ time_bucket ++ "&start=" ++ start_time ++
    "&end=" ++ end_time ++ "&max_bytes=" ++ toString max_bytes

/-- One HTTP GET request as issued by `requests.get(url, stream=...)`. -/
structure GetRequest where
  url : String
  stream : Bool
deriving DecidableEq, Repr

/-- The single request `get_ohlcv_candles` builds (line 141:
`requests.get(self.api_url + api_extension, stream=True)`). -/
def candles_request (api_url : String) (pair_ids : List PairId)
    (start_time end_time : String) (time_bucket : String) (max_bytes : Nat) :
    GetRequest :=
  ⟨api_url ++ candles_api_extension pair_ids start_time end_time time_bucket max_bytes, true⟩

/-- The list of GET requests one call of `get_ohlcv_candles` issues: the body
is straight-line code with a single `requests.get`, so exactly one request. -/
def candles_requests_issued (api_url : String) (pair_ids : List PairId)
    (start_time end_time : String) (time_bucket : String) (max_bytes : Nat) :
    List GetRequest :=
  [candles_request api_url pair_ids start_time end_time time_bucket max_bytes]

/-- Outcome of issuing a GET: either the connection fails (`requests` raises)
or a response with a status code and a body arrives; for the candle endpoint
the body is modelled as the list of decoded JSON objects the `jsonlines`
reader yields. -/
inductive HttpResult where
  | connError
  | ok (status : Nat) (body : List JObj)

/-- One step of the grouping loop of lines 145-147: append `item` to the
`defaultdict(list)` entry for key `k`, creating the entry at the end (dict
insertion order) on first sight. -/
def addToGroups (gs : List (JVal × List JObj)) (k : JVal) (item : JObj) :
    List (JVal × List JObj) :=
  match gs with
  | [] => [(k, [item])]
  | (k', is') :: rest =>
      if k' = k then (k', is' ++ [item]) :: rest
      else (k', is') :: addToGroups rest k item

/-- The grouping loop of lines 144-147: `for item in reader: pair_id =
item["p"]; candle_dict[pair_id].append(item)`.  A record without a `p` field
raises `KeyError("p")`, aborting the loop. -/
def groupLoop (acc : List (JVal × List JObj)) :
    List JObj → Except PyErr (List (JVal × List JObj))
  | [] => .ok acc
  | item :: rest =>
      match jlookup item "p" with
      | none => .error (.keyError "p")
      | some k => groupLoop (addToGroups acc k item) rest

/-- A Python list comprehension `[val[f] for val in items]`: raises
`KeyError(f)` at the first record missing field `f`. -/
def mapLookup (f : String) : List JObj → Except PyErr (List JVal)
  | [] => .ok []
  | item :: rest =>
      match jlookup item f with
      | none => .error (.keyError f)
      | some v =>
          match mapLookup f rest with
          | .error e => .error e
          | .ok vs => .ok (v :: vs)

/-- Lines 152-158: extract the six per-record columns of one group and build
its DataFrame, converting the `ts` column with `pd.to_datetime(ts, unit="s")`. -/
def buildSeries (items : List JObj) : Except PyErr CandleDF := do
  let ts ← mapLookup "ts" items
  let o ← mapLookup "o" items
  let h ← mapLookup "h" items
  let l ← mapLookup "l" items
  let c ← mapLookup "c" items
  let v ← mapLookup "v" items
  pure ⟨ts.map PdTimestamp.mk, o, h, l, c, v⟩

/-- Lines 149-159: the loop over `candle_dict.items()` building `return_dict`
in the same (insertion) key order. -/
def materialize : List (JVal × List JObj) → Except PyErr (List (JVal × CandleDF))
  | [] => .ok []
  | (k, items) :: rest => do
      let df ← buildSeries items
      let out ← materialize rest
      pure ((k, df) :: out)

/-- The response-processing part of `get_ohlcv_candles` (lines 143-161),
applied to the decoded line stream of the response body. -/
def get_ohlcv_candles_lines (lines : List JObj) :
    Except PyErr (List (JVal × CandleDF)) := do
  let groups ← groupLoop [] lines
  materialize groups

/-- The whole of `get_ohlcv_candles` (lines 138-161): build the URL, issue
the single streaming GET through `transport`, and process the body.  A
connection failure surfaces as `transportError`; the response status code is
never inspected (the source has no `raise_for_status`/status check). -/
def get_ohlcv_candles (api_url : String) (pair_ids : List PairId)
    (start_time end_time : String) (time_bucket : String) (max_bytes : Nat)
    (transport : GetRequest → HttpResult) :
    Except PyErr (List (JVal × CandleDF)) :=
  match transport (candles_request api_url pair_ids start_time end_time time_bucket max_bytes) with
  | .connError => .error .transportError
  | .ok _status body => get_ohlcv_candles_lines body

/-- The chain DataFrame of lines 47-50: `name` and `slug` columns indexed by
`chain_id`; all three lists are positionally aligned. -/
structure ChainTable where
  index : List JVal
  name : List JVal
  slug : List JVal
deriving DecidableEq, Repr

/-- Lines 42-51 of the source, applied to the decoded JSON array of the
`chains` response: three list comprehensions over the array (in source order
`chain_name`, `chain_slug`, `chain_id`) and a DataFrame of the results. -/
def get_chain_data (chains : List JObj) : Except PyErr ChainTable := do
  let chain_names ← mapLookup "chain_name" chains
  let chain_slugs ← mapLookup "chain_slug" chains
  let chain_id ← mapLookup "chain_id" chains
  pure ⟨chain_id, chain_names, chain_slugs⟩

/-- The seven candle-record fields `get_ohlcv_candles` reads. -/
def candleFields : List String := ["p", "ts", "o", "h", "l", "c", "v"]

/-- A candle record is valid when it carries all seven fields. -/
def validLine (l : JObj) : Bool :=
  candleFields.all (fun f => (jlookup l f).isSome)

/-- Whether a record's `p` field equals `k`. -/
def pMatches (k : JVal) (l : JObj) : Bool :=
  decide (jlookup l "p" = some k)

/-- The records of the stream carrying pair identifier `k`, in stream order. -/
def seriesRecords (lines : List JObj) (k : JVal) : List JObj :=
  lines.filter (pMatches k)

/-- The pair identifiers of the stream, with multiplicity, in stream order. -/
def pVals (lines : List JObj) : List JVal :=
  lines.filterMap (fun l => jlookup l "p")

/-- First-occurrence deduplication: keeps the first occurrence of each value,
in order of first appearance. -/
def dedupFirst : List JVal → List JVal
  | [] => []
  | k :: rest => k :: (dedupFirst rest).filter (fun x => decide (¬x = k))

/-- Specification-side closed form of one output series: the six columns read
off the given records in order. -/
def mkSeries (items : List JObj) : CandleDF :=
  ⟨(items.filterMap (fun l => jlookup l "ts")).map PdTimestamp.mk,
   items.filterMap (fun l => jlookup l "o"),
   items.filterMap (fun l => jlookup l "h"),
   items.filterMap (fun l => jlookup l "l"),
   items.filterMap (fun l => jlookup l "c"),
   items.filterMap (fun l => jlookup l "v")⟩

/-- Specification-side closed form of the whole result of a valid candle
fetch: one entry per distinct pair identifier in first-occurrence order,
each carrying the series of exactly its own records. -/
def candleOutput (lines : List JObj) : List (JVal × CandleDF) :=
  (dedupFirst (pVals lines)).map (fun k => (k, mkSeries (seriesRecords lines k)))

/-- Association-list lookup (first match), modelling `dict.get` on the
insertion-ordered dictionaries. -/
def alookup {β : Type} : List (JVal × β) → JVal → Option β
  | [], _ => none
  | (k', v) :: rest, k => if k' = k then some v else alookup rest k

/-- The keys of an insertion-ordered dictionary, in order. -/
def keysOf {β : Type} (gs : List (JVal × β)) : List JVal :=
  gs.map Prod.fst

/-- Key insertion as performed by `defaultdict` on first sight of a key. -/
def insertKey (ks : List JVal) (k : JVal) : List JVal :=
  if k ∈ ks then ks else ks ++ [k]

/-- How one grouping pass extends a previous lookup result. -/
def mergeOpt : Option (List JObj) → List JObj → Option (List JObj)
  | some is', recs => some (is' ++ recs)
  | none, [] => none
  | none, recs => some recs

/-- Specification-side closed form of the chain table: the three columns read
off the response array in order. -/
def chainOutput (chains : List JObj) : ChainTable :=
  ⟨chains.filterMap (fun l => jlookup l "chain_id"),
   chains.filterMap (fun l => jlookup l "chain_name"),
   chains.filterMap (fun l => jlookup l "chain_slug")⟩

/-- A chain object is valid when it carries the three fields `get_chain_data`
reads. -/
def validChain (l : JObj) : Bool :=
  (jlookup l "chain_name").isSome && (jlookup l "chain_slug").isSome &&
    (jlookup l "chain_id").isSome

/-- Two records agree on the seven candle fields `get_ohlcv_candles` reads
(they may differ arbitrarily elsewhere). -/
def agree7 (l1 l2 : JObj) : Prop :=
  ∀ f ∈ candleFields, jlookup l1 f = jlookup l2 f

instance agree7_decidable (l1 l2 : JObj) : Decidable (agree7 l1 l2) :=
  inferInstanceAs (Decidable (∀ f ∈ candleFields, jlookup l1 f = jlookup l2 f))

/-- Pointwise correspondence of two grouping dictionaries: same keys in the
same order, and the grouped records agree pairwise on the seven fields. -/
abbrev groupsRel (gs1 gs2 : List (JVal × List JObj)) : Prop :=
  List.Forall₂ (fun e1 e2 => e1.1 = e2.1 ∧ List.Forall₂ agree7 e1.2 e2.2) gs1 gs2

/-- Lifts a relation to `Except` results: both fail with the same error, or
both succeed with related values. -/
def exceptRel {α : Type} (R : α → α → Prop) :
    Except PyErr α → Except PyErr α → Prop
  | .error e1, .error e2 => e1 = e2
  | .ok a, .ok b => R a b
  | _, _ => False

/-- Builds a fully populated candle record, for concrete test streams. -/
def wl (p ts o h l c v : Int) : JObj :=
  [("p", JVal.jnum p), ("ts", JVal.jnum ts), ("o", JVal.jnum o),
   ("h", JVal.jnum h), ("l", JVal.jnum l), ("c", JVal.jnum c),
   ("v", JVal.jnum v)]

/-- Concrete stream with pair ids 1, 2, 1. -/
def w1_lines : List JObj :=
  [wl 1 100 10 12 9 11 3, wl 2 100 20 22 19 21 4, wl 1 200 11 13 10 12 5]

/-- Concrete stream with pair ids 5, 5, 6. -/
def w2_lines : List JObj :=
  [wl 5 100 1 2 3 4 5, wl 5 200 6 7 8 9 10, wl 6 100 2 3 4 5 6]

/-- Concrete stream with pair ids 3, 7, 3. -/
def w3_lines : List JObj :=
  [wl 3 100 1 1 1 1 1, wl 7 100 2 2 2 2 2, wl 3 200 1 1 1 1 1]

/-- Concrete stream whose second line is missing the `p` field. -/
def w4_lines : List JObj :=
  [wl 1 100 1 1 1 1 1, [("ts", JVal.jnum 200)]]

/-- A transport whose response has an empty body. -/
def w6_transport : GetRequest → HttpResult := fun _ => HttpResult.ok 200 []

/-- Concrete chains response with two chain objects. -/
def w8_chains : List JObj :=
  [[("chain_name", JVal.jstr "Ethereum"), ("chain_slug", JVal.jstr "ethereum"),
    ("chain_id", JVal.jnum 1)],
   [("chain_name", JVal.jstr "Polygon"), ("chain_slug", JVal.jstr "polygon"),
    ("chain_id", JVal.jnum 137)]]

/-- Concrete one-line stream whose record carries an extra eighth field. -/
def w10_lines1 : List JObj := [wl 1 100 1 2 3 4 5 ++ [("extra", JVal.jstr "x")]]

/-- The same stream without the extra field. -/
def w10_lines2 : List JObj := [wl 1 100 1 2 3 4 5]

/-- The single candle-shaped line of a hypothetical HTTP 500 error body. -/
def c5_line : JObj := wl 7 0 1 1 1 1 0

/-- A transport that delivers an HTTP 500 response carrying `c5_line`. -/
def c5_transport : GetRequest → HttpResult := fun _ => HttpResult.ok 500 [c5_line]

example : get_ohlcv_candles_lines [] = .ok [] := rfl

example :
    get_ohlcv_candles_lines
      [[("p", JVal.jnum 1), ("ts", JVal.jnum 9), ("o", JVal.jnum 1),
        ("h", JVal.jnum 2), ("l", JVal.jnum 0), ("c", JVal.jnum 1),
        ("v", JVal.jnum 5)]] =
    .ok [(JVal.jnum 1,
      ⟨[⟨JVal.jnum 9⟩], [JVal.jnum 1], [JVal.jnum 2], [JVal.jnum 0],
       [JVal.jnum 1], [JVal.jnum 5]⟩)] := rfl

example : dedupFirst [JVal.jnum 1, JVal.jnum 2, JVal.jnum 1] =
    [JVal.jnum 1, JVal.jnum 2] := rfl

/-! ## Helper lemmas about the grouping loop -/

lemma validLine_field {l : JObj} (hv : validLine l = true) {f : String}
    (hf : f ∈ candleFields) : (jlookup l f).isSome = true := by
  rw [validLine, List.all_eq_true] at hv
  exact hv f hf

lemma keysOf_addToGroups (gs : List (JVal × List JObj)) (k : JVal) (item : JObj) :
    keysOf (addToGroups gs k item) = insertKey (keysOf gs) k := by
  induction gs with
  | nil => simp [addToGroups, keysOf, insertKey]
  | cons e rest ih =>
    obtain ⟨k', is'⟩ := e
    by_cases h : k' = k
    · subst h
      simp [addToGroups, keysOf, insertKey]
    · have h' : ¬k = k' := fun hk => h hk.symm
      simp only [keysOf] at ih ⊢
      simp only [addToGroups, if_neg h, List.map_cons, ih, insertKey]
      by_cases hk : k ∈ List.map Prod.fst rest
      · simp [hk, h']
      · simp [hk, h']

lemma alookup_addToGroups_self (gs : List (JVal × List JObj)) (k : JVal) (item : JObj) :
    alookup (addToGroups gs k item) k = some ((alookup gs k).getD [] ++ [item]) := by
  induction gs with
  | nil => simp [addToGroups, alookup]
  | cons e rest ih =>
    obtain ⟨k', is'⟩ := e
    by_cases h : k' = k
    · subst h
      simp [addToGroups, alookup]
    · simp [addToGroups, alookup, h, ih]

lemma alookup_addToGroups_ne (gs : List (JVal × List JObj)) (k k2 : JVal) (item : JObj)
    (h : ¬k2 = k) :
    alookup (addToGroups gs k item) k2 = alookup gs k2 := by
  have h2 : ¬k = k2 := fun e => h e.symm
  induction gs with
  | nil => simp [addToGroups, alookup, h2]
  | cons e rest ih =>
    obtain ⟨k', is'⟩ := e
    by_cases hh : k' = k
    · subst hh
      simp [addToGroups, alookup, h2]
    · simp [addToGroups, alookup, hh, ih]

lemma insertKey_nodup (ks : List JVal) (k : JVal) (h : ks.Nodup) :
    (insertKey ks k).Nodup := by
  rw [insertKey]
  by_cases hk : k ∈ ks
  · simp [hk, h]
  · simp only [hk, if_false]
    refine List.Nodup.append h (by simp) ?_
    intro a ha hb
    simp at hb
    subst hb
    exact hk ha

/-! ## First-occurrence deduplication -/

lemma mem_dedupFirst (x : JVal) (l : List JVal) : x ∈ dedupFirst l ↔ x ∈ l := by
  induction l with
  | nil => simp [dedupFirst]
  | cons k rest ih =>
    by_cases h : x = k
    · subst h
      simp [dedupFirst]
    · simp [dedupFirst, List.mem_filter, h, ih]

lemma nodup_dedupFirst (l : List JVal) : (dedupFirst l).Nodup := by
  induction l with
  | nil => simp [dedupFirst]
  | cons k rest ih =>
    rw [dedupFirst, List.nodup_cons]
    constructor
    · intro hmem
      rw [List.mem_filter] at hmem
      simp at hmem
    · exact ih.filter _

lemma filter_comm' (p q : JVal → Bool) (l : List JVal) :
    (l.filter q).filter p = (l.filter p).filter q := by
  induction l with
  | nil => rfl
  | cons a rest ih =>
    by_cases hp : p a = true <;> by_cases hq : q a = true <;>
      simp [List.filter_cons, hp, hq, ih]

lemma filter_dedupFirst (p : JVal → Bool) (l : List JVal) :
    (dedupFirst l).filter p = dedupFirst (l.filter p) := by
  induction l with
  | nil => rfl
  | cons k rest ih =>
    by_cases hp : p k = true
    · rw [dedupFirst, List.filter_cons_of_pos hp, filter_comm', ih,
        List.filter_cons_of_pos hp, dedupFirst]
    · rw [dedupFirst, List.filter_cons_of_neg hp, filter_comm', ih,
        List.filter_cons_of_neg hp]
      apply List.filter_eq_self.mpr
      intro x hx
      rw [mem_dedupFirst, List.mem_filter] at hx
      simp only [decide_eq_true_eq]
      intro hxk
      subst hxk
      exact hp hx.2

lemma dedupFirst_eq_self (l : List JVal) (h : l.Nodup) : dedupFirst l = l := by
  induction l with
  | nil => rfl
  | cons k rest ih =>
    rw [List.nodup_cons] at h
    rw [dedupFirst, ih h.2]
    congr 1
    apply List.filter_eq_self.mpr
    intro x hx
    simp only [decide_eq_true_eq]
    intro hxk
    subst hxk
    exact h.1 hx

lemma dedupFirst_append_cons_of_mem (ks : List JVal) (k : JVal) (ps : List JVal)
    (h : k ∈ ks) : dedupFirst (ks ++ k :: ps) = dedupFirst (ks ++ ps) := by
  induction ks with
  | nil => simp at h
  | cons a rest ih =>
    by_cases ha : k = a
    · subst ha
      rw [List.cons_append, List.cons_append, dedupFirst, dedupFirst,
        filter_dedupFirst, filter_dedupFirst]
      congr 2
      rw [List.filter_append, List.filter_append, List.filter_cons_of_neg (by simp)]
    · rcases List.mem_cons.mp h with h1 | h1
      · exact absurd h1 ha
      · rw [List.cons_append, List.cons_append, dedupFirst, dedupFirst, ih h1]

/-! ## The grouping loop invariant -/

lemma groupLoop_spec (lines : List JObj) :
    ∀ acc : List (JVal × List JObj), (keysOf acc).Nodup →
    (∀ l ∈ lines, (jlookup l "p").isSome = true) →
    ∃ gs, groupLoop acc lines = .ok gs ∧
      keysOf gs = dedupFirst (keysOf acc ++ pVals lines) ∧
      ∀ k, alookup gs k = mergeOpt (alookup acc k) (seriesRecords lines k) := by
  induction lines with
  | nil =>
    intro acc hnd _
    refine ⟨acc, rfl, by simp [pVals, dedupFirst_eq_self _ hnd], ?_⟩
    intro k
    cases h : alookup acc k <;> simp [mergeOpt, seriesRecords, h]
  | cons l rest ih =>
    intro acc hnd hall
    have hl : (jlookup l "p").isSome = true := hall l (by simp)
    obtain ⟨k0, hk0⟩ : ∃ k0, jlookup l "p" = some k0 := by
      cases hx : jlookup l "p" with
      | none => rw [hx] at hl; simp at hl
      | some k0 => exact ⟨k0, rfl⟩
    have hrest : ∀ x ∈ rest, (jlookup x "p").isSome = true :=
      fun x hx => hall x (by simp [hx])
    obtain ⟨gs, hgs, hkeys, hlook⟩ :=
      ih (addToGroups acc k0 l)
        (by rw [keysOf_addToGroups]; exact insertKey_nodup _ _ hnd) hrest
    refine ⟨gs, ?_, ?_, ?_⟩
    · simp [groupLoop, hk0, hgs]
    · rw [hkeys, keysOf_addToGroups]
      have hps : pVals (l :: rest) = k0 :: pVals rest := by
        simp [pVals, List.filterMap_cons, hk0]
      rw [hps, insertKey]
      by_cases hmem : k0 ∈ keysOf acc
      · rw [if_pos hmem, dedupFirst_append_cons_of_mem _ _ _ hmem]
      · rw [if_neg hmem, List.append_assoc]
        rfl
    · intro k
      rw [hlook k]
      by_cases hk : k = k0
      · subst hk
        rw [alookup_addToGroups_self]
        have hsr : seriesRecords (l :: rest) k = l :: seriesRecords rest k := by
          simp [seriesRecords, List.filter_cons, pMatches, hk0]
        rw [hsr]
        cases hacc : alookup acc k <;> simp [mergeOpt, hacc]
      · have hne : ¬k0 = k := fun e => hk e.symm
        rw [alookup_addToGroups_ne _ _ _ _ hk]
        have hsr : seriesRecords (l :: rest) k = seriesRecords rest k := by
          simp [seriesRecords, List.filter_cons, pMatches, hk0, hne]
        rw [hsr]

/-! ## Materialization lemmas -/

lemma mapLookup_ok (f : String) (items : List JObj)
    (h : ∀ l ∈ items, (jlookup l f).isSome = true) :
    mapLookup f items = .ok (items.filterMap (fun l => jlookup l f)) := by
  induction items with
  | nil => rfl
  | cons item rest ih =>
    obtain ⟨v, hv⟩ : ∃ v, jlookup item f = some v := by
      have hx := h item (by simp)
      cases hy : jlookup item f with
      | none => rw [hy] at hx; simp at hx
      | some v => exact ⟨v, rfl⟩
    have ih' := ih (fun x hx => h x (by simp [hx]))
    simp [mapLookup, hv, ih', List.filterMap_cons]

lemma validLine_of_all {lines : List JObj} (hv : lines.all validLine = true) :
    ∀ l ∈ lines, validLine l = true := by
  rw [List.all_eq_true] at hv
  exact hv

lemma buildSeries_ok (items : List JObj) (h : ∀ l ∈ items, validLine l = true) :
    buildSeries items = .ok (mkSeries items) := by
  have hf : ∀ f, f ∈ candleFields → ∀ l ∈ items, (jlookup l f).isSome = true :=
    fun f hf l hl => validLine_field (h l hl) hf
  rw [buildSeries,
    mapLookup_ok "ts" items (hf "ts" (by simp [candleFields])),
    mapLookup_ok "o" items (hf "o" (by simp [candleFields])),
    mapLookup_ok "h" items (hf "h" (by simp [candleFields])),
    mapLookup_ok "l" items (hf "l" (by simp [candleFields])),
    mapLookup_ok "c" items (hf "c" (by simp [candleFields])),
    mapLookup_ok "v" items (hf "v" (by simp [candleFields]))]
  rfl

lemma materialize_ok (gs : List (JVal × List JObj))
    (h : ∀ e ∈ gs, ∀ l ∈ e.2, validLine l = true) :
    materialize gs = .ok (gs.map (fun e => (e.1, mkSeries e.2))) := by
  induction gs with
  | nil => rfl
  | cons e rest ih =>
    obtain ⟨k, items⟩ := e
    have h1 : buildSeries items = .ok (mkSeries items) :=
      buildSeries_ok items (h (k, items) (by simp))
    have h2 := ih (fun e' he' => h e' (by simp [he']))
    show (do
      let df ← buildSeries items
      let out ← materialize rest
      pure ((k, df) :: out)) = _
    rw [h1, h2]
    rfl

/-! ## Association lists with unique keys -/

lemma map_congr_mem {α β : Type} (l : List α) (f g : α → β)
    (h : ∀ x ∈ l, f x = g x) : l.map f = l.map g := by
  induction l with
  | nil => rfl
  | cons a rest ih =>
    simp only [List.map_cons, h a (by simp), ih (fun x hx => h x (by simp [hx]))]

lemma eq_map_of_alookup (gs : List (JVal × List JObj))
    (hnd : (keysOf gs).Nodup) :
    gs = (keysOf gs).map (fun k => (k, (alookup gs k).getD [])) := by
  induction gs with
  | nil => rfl
  | cons e rest ih =>
    obtain ⟨k, v⟩ := e
    simp only [keysOf, List.map_cons] at hnd ⊢
    rw [List.nodup_cons] at hnd
    have hstep : (List.map Prod.fst rest).map
        (fun x => (x, (alookup ((k, v) :: rest) x).getD [])) =
        (List.map Prod.fst rest).map (fun x => (x, (alookup rest x).getD [])) := by
      apply map_congr_mem
      intro x hx
      have hxk : ¬k = x := fun e => hnd.1 (by rw [e]; exact hx)
      simp [alookup, hxk]
    have hh : alookup ((k, v) :: rest) k = some v := by simp [alookup]
    rw [hh, hstep]
    simp only [Option.getD_some, List.cons.injEq, true_and]
    have ih' := ih hnd.2
    simpa [keysOf] using ih'

lemma seriesRecords_ne_nil (lines : List JObj) (k : JVal) (hk : k ∈ pVals lines) :
    seriesRecords lines k ≠ [] := by
  rw [pVals, List.mem_filterMap] at hk
  obtain ⟨l, hl, hlk⟩ := hk
  intro hnil
  have hmem : l ∈ seriesRecords lines k := by
    rw [seriesRecords, List.mem_filter]
    exact ⟨hl, by simp [pMatches, hlk]⟩
  rw [hnil] at hmem
  simp at hmem

/-! ## Master characterization of the candle parse -/

lemma get_ohlcv_candles_lines_spec (lines : List JObj)
    (hv : lines.all validLine = true) :
    get_ohlcv_candles_lines lines = .ok (candleOutput lines) := by
  have hvm : ∀ l ∈ lines, validLine l = true := validLine_of_all hv
  have hp : ∀ l ∈ lines, (jlookup l "p").isSome = true :=
    fun l hl => validLine_field (hvm l hl) (by simp [candleFields])
  obtain ⟨gs, hgs, hkeys, hlook⟩ := groupLoop_spec lines [] (by simp [keysOf]) hp
  have hkeys' : keysOf gs = dedupFirst (pVals lines) := by simpa [keysOf] using hkeys
  have hnd : (keysOf gs).Nodup := by rw [hkeys']; exact nodup_dedupFirst _
  have hgseq : gs = (dedupFirst (pVals lines)).map
      (fun k => (k, seriesRecords lines k)) := by
    have h1 := eq_map_of_alookup gs hnd
    rw [hkeys'] at h1
    rw [h1]
    apply map_congr_mem
    intro k hk
    have hk2 : k ∈ pVals lines := (mem_dedupFirst k _).mp hk
    have hrecne : seriesRecords lines k ≠ [] := seriesRecords_ne_nil lines k hk2
    have hlk := hlook k
    rw [show alookup ([] : List (JVal × List JObj)) k = none from rfl] at hlk
    cases hrec : seriesRecords lines k with
    | nil => exact absurd hrec hrecne
    | cons a r =>
      rw [hrec] at hlk
      rw [show mergeOpt none (a :: r) = some (a :: r) from rfl] at hlk
      simp [hlk, hrec]
  have hval : ∀ e ∈ gs, ∀ l ∈ e.2, validLine l = true := by
    intro e he l hl
    rw [hgseq, List.mem_map] at he
    obtain ⟨k, _, rfl⟩ := he
    exact hvm l (List.mem_of_mem_filter hl)
  have hmat := materialize_ok gs hval
  unfold get_ohlcv_candles_lines
  rw [hgs]
  show materialize gs = _
  rw [hmat, hgseq, candleOutput, List.map_map]
  rfl

/-! ## Lookup in the closed-form output -/

lemma alookup_map_series (ks : List JVal) (g : JVal → CandleDF) (hnd : ks.Nodup)
    (k : JVal) (hk : k ∈ ks) :
    alookup (ks.map (fun x => (x, g x))) k = some (g k) := by
  induction ks with
  | nil => simp at hk
  | cons a rest ih =>
    rw [List.nodup_cons] at hnd
    rw [List.map_cons]
    by_cases h : a = k
    · subst h
      simp [alookup]
    · rw [show alookup ((a, g a) :: rest.map (fun x => (x, g x))) k
          = alookup (rest.map (fun x => (x, g x))) k from by simp [alookup, h]]
      rcases List.mem_cons.mp hk with h1 | h1
      · exact absurd h1.symm h
      · exact ih hnd.2 h1

lemma alookup_map_series_inv (ks : List JVal) (g : JVal → CandleDF) (k : JVal)
    (df : CandleDF) (h : alookup (ks.map (fun x => (x, g x))) k = some df) :
    df = g k ∧ k ∈ ks := by
  induction ks with
  | nil => simp [alookup] at h
  | cons a rest ih =>
    rw [List.map_cons] at h
    by_cases ha : a = k
    · subst ha
      simp [alookup] at h
      exact ⟨h.symm, by simp⟩
    · rw [show alookup ((a, g a) :: rest.map (fun x => (x, g x))) k
          = alookup (rest.map (fun x => (x, g x))) k from by simp [alookup, ha]] at h
      obtain ⟨h1, h2⟩ := ih h
      exact ⟨h1, by simp [h2]⟩

lemma keysOf_candleOutput (lines : List JObj) :
    keysOf (candleOutput lines) = dedupFirst (pVals lines) := by
  rw [candleOutput, keysOf, List.map_map]
  rw [show (Prod.fst ∘ fun k => (k, mkSeries (seriesRecords lines k))) = id from rfl]
  exact List.map_id _

/-! ## filterMap on all-defined functions -/

lemma filterMap_length_of_isSome {α β : Type} (g : α → Option β) (l : List α)
    (h : ∀ x ∈ l, (g x).isSome = true) : (l.filterMap g).length = l.length := by
  induction l with
  | nil => rfl
  | cons a rest ih =>
    obtain ⟨v, hv⟩ : ∃ v, g a = some v := Option.isSome_iff_exists.mp (h a (by simp))
    rw [List.filterMap_cons, hv]
    simp [ih (fun x hx => h x (by simp [hx]))]

lemma filterMap_getElem?_of_isSome {α β : Type} (g : α → Option β) (l : List α)
    (h : ∀ x ∈ l, (g x).isSome = true) (n : Nat) :
    (l.filterMap g)[n]? = l[n]?.bind g := by
  induction l generalizing n with
  | nil => simp
  | cons a rest ih =>
    obtain ⟨v, hv⟩ : ∃ v, g a = some v := Option.isSome_iff_exists.mp (h a (by simp))
    rw [List.filterMap_cons, hv]
    cases n with
    | zero => simp [hv]
    | succ m => simp [ih (fun x hx => h x (by simp [hx])) m]

/-! ## The error path of the grouping loop -/

lemma groupLoop_err (lines : List JObj) :
    ∀ acc, (∃ l ∈ lines, jlookup l "p" = none) →
    groupLoop acc lines = .error (.keyError "p") := by
  induction lines with
  | nil =>
    intro acc h
    simp at h
  | cons l rest ih =>
    intro acc h
    cases hl : jlookup l "p" with
    | none => simp [groupLoop, hl]
    | some k =>
      have hrest : ∃ l2 ∈ rest, jlookup l2 "p" = none := by
        obtain ⟨l2, hl2, hnone⟩ := h
        rcases List.mem_cons.mp hl2 with rfl | hmem
        · rw [hl] at hnone
          cases hnone
        · exact ⟨l2, hmem, hnone⟩
      simp [groupLoop, hl, ih _ hrest]

/-! ## The candle parse depends only on the seven candle fields -/

lemma addToGroups_rel (gs1 gs2 : List (JVal × List JObj)) (k : JVal)
    (i1 i2 : JObj) (hgs : groupsRel gs1 gs2) (hi : agree7 i1 i2) :
    groupsRel (addToGroups gs1 k i1) (addToGroups gs2 k i2) := by
  induction hgs with
  | nil =>
    exact List.Forall₂.cons ⟨rfl, List.Forall₂.cons hi List.Forall₂.nil⟩ List.Forall₂.nil
  | cons h1 h2 ih =>
    rename_i e1 e2 l1 l2
    obtain ⟨ek1, eis1⟩ := e1
    obtain ⟨ek2, eis2⟩ := e2
    obtain ⟨hk12, his⟩ := h1
    simp only at hk12
    subst hk12
    show groupsRel (addToGroups ((ek1, eis1) :: l1) k i1)
      (addToGroups ((ek1, eis2) :: l2) k i2)
    by_cases hk : ek1 = k
    · simp only [addToGroups, if_pos hk]
      exact List.Forall₂.cons
        ⟨rfl, List.rel_append his (List.Forall₂.cons hi List.Forall₂.nil)⟩ h2
    · simp only [addToGroups, if_neg hk]
      exact List.Forall₂.cons ⟨rfl, his⟩ ih

lemma groupLoop_rel (ls1 ls2 : List JObj) (h : List.Forall₂ agree7 ls1 ls2) :
    ∀ acc1 acc2, groupsRel acc1 acc2 →
    exceptRel groupsRel (groupLoop acc1 ls1) (groupLoop acc2 ls2) := by
  induction h with
  | nil =>
    intro acc1 acc2 hacc
    exact hacc
  | cons h1 h2 ih =>
    rename_i a b l1 l2
    intro acc1 acc2 hacc
    have hp : jlookup a "p" = jlookup b "p" := h1 "p" (by simp [candleFields])
    cases hpa : jlookup a "p" with
    | none =>
      have hpb : jlookup b "p" = none := by rw [← hp]; exact hpa
      simp only [groupLoop, hpa, hpb]
      exact rfl
    | some k =>
      have hpb : jlookup b "p" = some k := by rw [← hp]; exact hpa
      simp only [groupLoop, hpa, hpb]
      exact ih _ _ (addToGroups_rel _ _ _ _ _ hacc h1)

lemma mapLookup_rel (f : String) (is1 is2 : List JObj)
    (h : List.Forall₂ agree7 is1 is2) (hf : f ∈ candleFields) :
    mapLookup f is1 = mapLookup f is2 := by
  induction h with
  | nil => rfl
  | cons h1 h2 ih =>
    rename_i a b l1 l2
    have hab : jlookup a f = jlookup b f := h1 f hf
    simp only [mapLookup, hab, ih]

lemma buildSeries_rel (is1 is2 : List JObj) (h : List.Forall₂ agree7 is1 is2) :
    buildSeries is1 = buildSeries is2 := by
  unfold buildSeries
  rw [mapLookup_rel "ts" _ _ h (by simp [candleFields]),
    mapLookup_rel "o" _ _ h (by simp [candleFields]),
    mapLookup_rel "h" _ _ h (by simp [candleFields]),
    mapLookup_rel "l" _ _ h (by simp [candleFields]),
    mapLookup_rel "c" _ _ h (by simp [candleFields]),
    mapLookup_rel "v" _ _ h (by simp [candleFields])]

lemma materialize_rel (gs1 gs2 : List (JVal × List JObj)) (h : groupsRel gs1 gs2) :
    materialize gs1 = materialize gs2 := by
  induction h with
  | nil => rfl
  | cons h1 h2 ih =>
    rename_i e1 e2 l1 l2
    obtain ⟨k1, is1⟩ := e1
    obtain ⟨k2, is2⟩ := e2
    obtain ⟨hk, his⟩ := h1
    simp only at hk
    subst hk
    show (do
      let df ← buildSeries is1
      let out ← materialize l1
      pure ((k1, df) :: out)) = (do
      let df ← buildSeries is2
      let out ← materialize l2
      pure ((k1, df) :: out))
    rw [buildSeries_rel _ _ his, ih]

/-! ## String building of the request URL -/

lemma append_append_left (a b c : String) {X : String} (h : a ++ b = c) :
    a ++ (b ++ X) = c ++ X := by
  rw [← String.append_assoc, h]

lemma intercalate_go_spec (s : String) (l : List String) :
    ∀ acc, String.intercalate.go acc s l =
      acc ++ (if l.isEmpty then "" else s ++ String.intercalate s l) := by
  induction l with
  | nil =>
    intro acc
    simp [String.intercalate.go]
  | cons b bs ih =>
    intro acc
    rw [show String.intercalate.go acc s (b :: bs)
        = String.intercalate.go (acc ++ s ++ b) s bs from rfl]
    rw [ih]
    rw [show String.intercalate s (b :: bs) = String.intercalate.go b s bs from rfl,
      ih b]
    cases bs with
    | nil => simp [String.append_assoc]
    | cons x xs => simp [String.append_assoc]

lemma pair_ids_string_cons (p : PairId) (rest : List PairId) :
    pair_ids_string (p :: rest) =
      pyStr p ++ (if rest.isEmpty then "" else "," ++ pair_ids_string rest) := by
  rw [pair_ids_string, List.map_cons,
    show String.intercalate "," (pyStr p :: rest.map pyStr)
      = String.intercalate.go (pyStr p) "," (rest.map pyStr) from rfl,
    intercalate_go_spec]
  cases rest with
  | nil => rfl
  | cons x xs => rfl

lemma candles_api_extension_default (pair_ids : List PairId) (st en : String) :
    candles_api_extension pair_ids st en default_time_bucket default_max_bytes =
      "candles-jsonl?pair_ids=" ++ (pair_ids_string pair_ids ++
        ("&time_bucket=15m&start=" ++ (st ++ ("&end=" ++
          (en ++ "&max_bytes=250000000"))))) := by
  rw [candles_api_extension, default_time_bucket, default_max_bytes]
  rw [show toString (250000000 : Nat) = "250000000" from rfl]
  simp only [String.append_assoc]
  rw [show ("&max_bytes=" ++ "250000000" : String) = "&max_bytes=250000000" from rfl]
  rw [append_append_left "15m" "&start=" "15m&start=" rfl]
  rw [append_append_left "&time_bucket=" "15m&start=" "&time_bucket=15m&start=" rfl]

/-! ## Chain table lemmas -/

lemma validChain_fields {l : JObj} (hv : validChain l = true) :
    (jlookup l "chain_name").isSome = true ∧
    (jlookup l "chain_slug").isSome = true ∧
    (jlookup l "chain_id").isSome = true := by
  rw [validChain, Bool.and_eq_true, Bool.and_eq_true] at hv
  exact ⟨hv.1.1, hv.1.2, hv.2⟩

lemma get_chain_data_spec (chains : List JObj) (hv : chains.all validChain = true) :
    get_chain_data chains = .ok (chainOutput chains) := by
  have hvm : ∀ l ∈ chains, validChain l = true := by
    rw [List.all_eq_true] at hv
    exact hv
  unfold get_chain_data
  rw [mapLookup_ok "chain_name" chains (fun l hl => (validChain_fields (hvm l hl)).1),
    mapLookup_ok "chain_slug" chains (fun l hl => (validChain_fields (hvm l hl)).2.1),
    mapLookup_ok "chain_id" chains (fun l hl => (validChain_fields (hvm l hl)).2.2)]
  rfl

/-! ## Claims -/

/-- C5 (the claim is wrong about the code): `get_ohlcv_candles` never inspects
the response status code, so a non-2xx response does NOT produce a transport
error — its body is parsed and returned as candle data.  Evaluated here on an
HTTP 500 response carrying one candle-shaped line: the call returns that line
as a one-series collection and does not fail. -/
theorem candles_status_ignored_c5 :
    get_ohlcv_candles "https://tradingstrategy.ai/api/" [PairId.pint 7]
        "2024-01-01" "2024-02-01" "15m" 250000000 c5_transport
      = .ok [(JVal.jnum 7,
          ⟨[⟨JVal.jnum 0⟩], [JVal.jnum 1], [JVal.jnum 1], [JVal.jnum 1],
           [JVal.jnum 1], [JVal.jnum 0]⟩)] ∧
    get_ohlcv_candles "https://tradingstrategy.ai/api/" [PairId.pint 7]
        "2024-01-01" "2024-02-01" "15m" 250000000 c5_transport
      ≠ .error PyErr.transportError := by
  refine ⟨rfl, ?_⟩
  intro hcontra
  rw [show get_ohlcv_candles "https://tradingstrategy.ai/api/" [PairId.pint 7]
      "2024-01-01" "2024-02-01" "15m" 250000000 c5_transport
    = .ok [(JVal.jnum 7,
        ⟨[⟨JVal.jnum 0⟩], [JVal.jnum 1], [JVal.jnum 1], [JVal.jnum 1],
         [JVal.jnum 1], [JVal.jnum 0]⟩)] from rfl] at hcontra
  exact Except.noConfusion hcontra

/-- C6: a response whose stream contains zero lines makes `get_ohlcv_candles`
return the empty collection without raising. -/
theorem candles_empty_stream_c6 (api_url : String) (pair_ids : List PairId)
    (start_time end_time time_bucket : String) (max_bytes : Nat)
    (transport : GetRequest → HttpResult) (status : Nat)
    (htr : transport (candles_request api_url pair_ids start_time end_time
      time_bucket max_bytes) = HttpResult.ok status []) :
    get_ohlcv_candles api_url pair_ids start_time end_time time_bucket max_bytes
      transport = .ok [] := by
  rw [get_ohlcv_candles, htr]
  rfl

/-- C6 witness: the theorem applied to a concrete transport delivering an
empty body. -/
theorem candles_empty_stream_c6_witness :
    (w6_transport (candles_request "https://tradingstrategy.ai/api/"
        [PairId.pint 1] "2024-01-01" "2024-02-01" "15m" 250000000)
      = HttpResult.ok 200 []) ∧
    get_ohlcv_candles "https://tradingstrategy.ai/api/" [PairId.pint 1]
      "2024-01-01" "2024-02-01" "15m" 250000000 w6_transport = .ok [] :=
  ⟨rfl, candles_empty_stream_c6 "https://tradingstrategy.ai/api/" [PairId.pint 1]
    "2024-01-01" "2024-02-01" "15m" 250000000 w6_transport 200 rfl⟩

/-- C7: one call issues exactly one GET; its URL is the base URL followed by
the `candles-jsonl` query template with the parameters in order; under the
default `time_bucket` and `max_bytes` the literal query carries `15m` and
`250000000`; the pair ids are comma-joined in the given order with no
deduplication (the recursive join characterization keeps every element,
duplicates included). -/
theorem candles_request_url_c7 :
    (∀ (api_url : String) (pair_ids : List PairId) (start_time end_time : String),
      candles_requests_issued api_url pair_ids start_time end_time
          default_time_bucket default_max_bytes =
        [⟨api_url ++ ("candles-jsonl?pair_ids=" ++
            (pair_ids_string pair_ids ++ ("&time_bucket=15m&start=" ++
              (start_time ++ ("&end=" ++ (end_time ++ "&max_bytes=250000000")))))),
          true⟩]) ∧
    default_time_bucket = "15m" ∧ default_max_bytes = 250000000 ∧
    (∀ (p : PairId) (rest : List PairId),
      pair_ids_string (p :: rest) =
        pyStr p ++ (if rest.isEmpty then "" else "," ++ pair_ids_string rest)) := by
  refine ⟨?_, rfl, rfl, pair_ids_string_cons⟩
  intro api_url pair_ids st en
  rw [candles_requests_issued, candles_request, candles_api_extension_default]

/-- C9: with an empty `pair_ids` list the comma-join is the empty string, the
request is still built (nothing raises), and the URL carries `pair_ids=` with
an empty value. -/
theorem candles_empty_pair_ids_c9 (api_url start_time end_time : String) :
    pair_ids_string [] = "" ∧
    candles_requests_issued api_url [] start_time end_time default_time_bucket
        default_max_bytes =
      [⟨api_url ++ ("candles-jsonl?pair_ids=&time_bucket=15m&start=" ++
          (start_time ++ ("&end=" ++ (end_time ++ "&max_bytes=250000000")))),
        true⟩] := by
  refine ⟨rfl, ?_⟩
  rw [candles_requests_issued, candles_request, candles_api_extension_default]
  rw [show pair_ids_string [] = "" from rfl, String.empty_append]
  rw [append_append_left "candles-jsonl?pair_ids=" "&time_bucket=15m&start="
    "candles-jsonl?pair_ids=&time_bucket=15m&start=" rfl]

/-- C1: for every non-empty valid candle line-stream consumed by
`get_ohlcv_candles`, every input record appears in exactly one series of the
returned collection, under the key equal to that record's `p` field: the
record belongs to the record list its series is built from, and belongs to no
other key's record list. -/
theorem candles_record_partition_c1 (api_url : String) (pair_ids : List PairId)
    (start_time end_time time_bucket : String) (max_bytes : Nat)
    (transport : GetRequest → HttpResult) (status : Nat) (lines : List JObj)
    (htr : transport (candles_request api_url pair_ids start_time end_time
      time_bucket max_bytes) = HttpResult.ok status lines)
    (hne : lines ≠ []) (hv : lines.all validLine = true) :
    get_ohlcv_candles api_url pair_ids start_time end_time time_bucket max_bytes
        transport = .ok (candleOutput lines) ∧
    ∀ rec ∈ lines, ∃ k, jlookup rec "p" = some k ∧
      alookup (candleOutput lines) k = some (mkSeries (seriesRecords lines k)) ∧
      rec ∈ seriesRecords lines k ∧
      ∀ k2, rec ∈ seriesRecords lines k2 → k2 = k := by
  have hvm : ∀ l ∈ lines, validLine l = true := validLine_of_all hv
  have hmain : get_ohlcv_candles api_url pair_ids start_time end_time time_bucket
      max_bytes transport = .ok (candleOutput lines) := by
    rw [get_ohlcv_candles, htr]
    exact get_ohlcv_candles_lines_spec lines hv
  refine ⟨hmain, ?_⟩
  intro rec hrec
  obtain ⟨k, hk⟩ : ∃ k, jlookup rec "p" = some k := by
    have hs := validLine_field (hvm rec hrec)
      (show "p" ∈ candleFields by simp [candleFields])
    cases hx : jlookup rec "p" with
    | none => rw [hx] at hs; simp at hs
    | some k => exact ⟨k, rfl⟩
  have hkmem : k ∈ pVals lines := by
    rw [pVals, List.mem_filterMap]
    exact ⟨rec, hrec, hk⟩
  refine ⟨k, hk, ?_, ?_, ?_⟩
  · rw [candleOutput]
    exact alookup_map_series _ _ (nodup_dedupFirst _) k
      ((mem_dedupFirst _ _).mpr hkmem)
  · rw [seriesRecords, List.mem_filter]
    exact ⟨hrec, by simp [pMatches, hk]⟩
  · intro k2 hk2
    rw [seriesRecords, List.mem_filter] at hk2
    have hp2 := hk2.2
    simp [pMatches, hk] at hp2
    exact hp2.symm

/-- C1 witness: the theorem applied to a concrete three-record stream with
pair ids 1, 2, 1. -/
theorem candles_record_partition_c1_witness :
    (w1_lines ≠ [] ∧ w1_lines.all validLine = true) ∧
    (get_ohlcv_candles "https://tradingstrategy.ai/api/"
        [PairId.pint 1, PairId.pint 2] "2024-01-01" "2024-02-01" "15m" 250000000
        (fun _ => HttpResult.ok 200 w1_lines) = .ok (candleOutput w1_lines) ∧
    ∀ rec ∈ w1_lines, ∃ k, jlookup rec "p" = some k ∧
      alookup (candleOutput w1_lines) k = some (mkSeries (seriesRecords w1_lines k)) ∧
      rec ∈ seriesRecords w1_lines k ∧
      ∀ k2, rec ∈ seriesRecords w1_lines k2 → k2 = k) :=
  ⟨⟨by decide, by decide⟩,
    candles_record_partition_c1 "https://tradingstrategy.ai/api/"
      [PairId.pint 1, PairId.pint 2] "2024-01-01" "2024-02-01" "15m" 250000000
      (fun _ => HttpResult.ok 200 w1_lines) 200 w1_lines rfl (by decide) (by decide)⟩

/-- C2: for every valid candle line-stream, each returned series holds as many
records as there are input lines with its pair identifier, in input order,
with per-record field alignment: the record list of a key is the
order-preserving filter of the stream, and the Nth index/Open/High/Low/Close/
Volume entries all come from the Nth record of that list. -/
theorem candles_series_alignment_c2 (api_url : String) (pair_ids : List PairId)
    (start_time end_time time_bucket : String) (max_bytes : Nat)
    (transport : GetRequest → HttpResult) (status : Nat) (lines : List JObj)
    (htr : transport (candles_request api_url pair_ids start_time end_time
      time_bucket max_bytes) = HttpResult.ok status lines)
    (hv : lines.all validLine = true) :
    get_ohlcv_candles api_url pair_ids start_time end_time time_bucket max_bytes
        transport = .ok (candleOutput lines) ∧
    ∀ k df, alookup (candleOutput lines) k = some df →
      df.index.length = (seriesRecords lines k).length ∧
      df.Open.length = (seriesRecords lines k).length ∧
      df.High.length = (seriesRecords lines k).length ∧
      df.Low.length = (seriesRecords lines k).length ∧
      df.Close.length = (seriesRecords lines k).length ∧
      df.Volume.length = (seriesRecords lines k).length ∧
      ∀ n, n < (seriesRecords lines k).length →
        ∃ rec, (seriesRecords lines k)[n]? = some rec ∧
          df.index[n]? = (jlookup rec "ts").map PdTimestamp.mk ∧
          df.Open[n]? = jlookup rec "o" ∧
          df.High[n]? = jlookup rec "h" ∧
          df.Low[n]? = jlookup rec "l" ∧
          df.Close[n]? = jlookup rec "c" ∧
          df.Volume[n]? = jlookup rec "v" := by
  have hvm : ∀ l ∈ lines, validLine l = true := validLine_of_all hv
  have hmain : get_ohlcv_candles api_url pair_ids start_time end_time time_bucket
      max_bytes transport = .ok (candleOutput lines) := by
    rw [get_ohlcv_candles, htr]
    exact get_ohlcv_candles_lines_spec lines hv
  refine ⟨hmain, ?_⟩
  intro k df hdf
  rw [candleOutput] at hdf
  obtain ⟨hdfeq, hkmem⟩ := alookup_map_series_inv _ _ _ _ hdf
  subst hdfeq
  have hrecv : ∀ f, f ∈ candleFields →
      ∀ l2 ∈ seriesRecords lines k, (jlookup l2 f).isSome = true :=
    fun f hf l2 hl2 => validLine_field (hvm l2 (List.mem_of_mem_filter hl2)) hf
  refine ⟨?_, ?_, ?_, ?_, ?_, ?_, ?_⟩
  · show (((seriesRecords lines k).filterMap
      (fun l2 => jlookup l2 "ts")).map PdTimestamp.mk).length = _
    rw [List.length_map]
    exact filterMap_length_of_isSome _ _ (hrecv "ts" (by simp [candleFields]))
  · exact filterMap_length_of_isSome _ _ (hrecv "o" (by simp [candleFields]))
  · exact filterMap_length_of_isSome _ _ (hrecv "h" (by simp [candleFields]))
  · exact filterMap_length_of_isSome _ _ (hrecv "l" (by simp [candleFields]))
  · exact filterMap_length_of_isSome _ _ (hrecv "c" (by simp [candleFields]))
  · exact filterMap_length_of_isSome _ _ (hrecv "v" (by simp [candleFields]))
  · intro n hn
    refine ⟨(seriesRecords lines k)[n], List.getElem?_eq_getElem hn,
      ?_, ?_, ?_, ?_, ?_, ?_⟩
    · show (((seriesRecords lines k).filterMap
        (fun l2 => jlookup l2 "ts")).map PdTimestamp.mk)[n]? = _
      rw [List.getElem?_map,
        filterMap_getElem?_of_isSome _ _ (hrecv "ts" (by simp [candleFields])) n,
        List.getElem?_eq_getElem hn]
      rfl
    · show ((seriesRecords lines k).filterMap (fun l2 => jlookup l2 "o"))[n]? = _
      rw [filterMap_getElem?_of_isSome _ _ (hrecv "o" (by simp [candleFields])) n,
        List.getElem?_eq_getElem hn]
      rfl
    · show ((seriesRecords lines k).filterMap (fun l2 => jlookup l2 "h"))[n]? = _
      rw [filterMap_getElem?_of_isSome _ _ (hrecv "h" (by simp [candleFields])) n,
        List.getElem?_eq_getElem hn]
      rfl
    · show ((seriesRecords lines k).filterMap (fun l2 => jlookup l2 "l"))[n]? = _
      rw [filterMap_getElem?_of_isSome _ _ (hrecv "l" (by simp [candleFields])) n,
        List.getElem?_eq_getElem hn]
      rfl
    · show ((seriesRecords lines k).filterMap (fun l2 => jlookup l2 "c"))[n]? = _
      rw [filterMap_getElem?_of_isSome _ _ (hrecv "c" (by simp [candleFields])) n,
        List.getElem?_eq_getElem hn]
      rfl
    · show ((seriesRecords lines k).filterMap (fun l2 => jlookup l2 "v"))[n]? = _
      rw [filterMap_getElem?_of_isSome _ _ (hrecv "v" (by simp [candleFields])) n,
        List.getElem?_eq_getElem hn]
      rfl

/-- C2 witness: the theorem applied to a concrete three-record stream with
pair ids 5, 5, 6. -/
theorem candles_series_alignment_c2_witness :
    w2_lines.all validLine = true ∧
    (get_ohlcv_candles "https://tradingstrategy.ai/api/"
        [PairId.pint 5, PairId.pint 6] "2024-01-01" "2024-02-01" "15m" 250000000
        (fun _ => HttpResult.ok 200 w2_lines) = .ok (candleOutput w2_lines) ∧
    ∀ k df, alookup (candleOutput w2_lines) k = some df →
      df.index.length = (seriesRecords w2_lines k).length ∧
      df.Open.length = (seriesRecords w2_lines k).length ∧
      df.High.length = (seriesRecords w2_lines k).length ∧
      df.Low.length = (seriesRecords w2_lines k).length ∧
      df.Close.length = (seriesRecords w2_lines k).length ∧
      df.Volume.length = (seriesRecords w2_lines k).length ∧
      ∀ n, n < (seriesRecords w2_lines k).length →
        ∃ rec, (seriesRecords w2_lines k)[n]? = some rec ∧
          df.index[n]? = (jlookup rec "ts").map PdTimestamp.mk ∧
          df.Open[n]? = jlookup rec "o" ∧
          df.High[n]? = jlookup rec "h" ∧
          df.Low[n]? = jlookup rec "l" ∧
          df.Close[n]? = jlookup rec "c" ∧
          df.Volume[n]? = jlookup rec "v") :=
  ⟨by decide,
    candles_series_alignment_c2 "https://tradingstrategy.ai/api/"
      [PairId.pint 5, PairId.pint 6] "2024-01-01" "2024-02-01" "15m" 250000000
      (fun _ => HttpResult.ok 200 w2_lines) 200 w2_lines rfl (by decide)⟩

/-- C3: for every valid candle line-stream, the key list of the returned
collection is exactly the distinct pair identifiers of the stream in
first-occurrence order (`dedupFirst`), without duplicates, covering exactly
the identifiers that occur, and no key maps to an empty series. -/
theorem candles_key_set_c3 (api_url : String) (pair_ids : List PairId)
    (start_time end_time time_bucket : String) (max_bytes : Nat)
    (transport : GetRequest → HttpResult) (status : Nat) (lines : List JObj)
    (htr : transport (candles_request api_url pair_ids start_time end_time
      time_bucket max_bytes) = HttpResult.ok status lines)
    (hv : lines.all validLine = true) :
    get_ohlcv_candles api_url pair_ids start_time end_time time_bucket max_bytes
        transport = .ok (candleOutput lines) ∧
    keysOf (candleOutput lines) = dedupFirst (pVals lines) ∧
    (keysOf (candleOutput lines)).Nodup ∧
    (∀ k, k ∈ keysOf (candleOutput lines) ↔
      ∃ rec ∈ lines, jlookup rec "p" = some k) ∧
    ∀ e ∈ candleOutput lines, e.2.index ≠ [] := by
  have hvm : ∀ l ∈ lines, validLine l = true := validLine_of_all hv
  have hmain : get_ohlcv_candles api_url pair_ids start_time end_time time_bucket
      max_bytes transport = .ok (candleOutput lines) := by
    rw [get_ohlcv_candles, htr]
    exact get_ohlcv_candles_lines_spec lines hv
  refine ⟨hmain, keysOf_candleOutput lines, ?_, ?_, ?_⟩
  · rw [keysOf_candleOutput]
    exact nodup_dedupFirst _
  · intro k
    rw [keysOf_candleOutput, mem_dedupFirst, pVals, List.mem_filterMap]
  · intro e he
    rw [candleOutput, List.mem_map] at he
    obtain ⟨k, hk, rfl⟩ := he
    have hk2 : k ∈ pVals lines := (mem_dedupFirst _ _).mp hk
    have hrecne := seriesRecords_ne_nil lines k hk2
    intro hnil
    rw [show (k, mkSeries (seriesRecords lines k)).2.index
        = ((seriesRecords lines k).filterMap
            (fun l2 => jlookup l2 "ts")).map PdTimestamp.mk from rfl] at hnil
    rw [List.map_eq_nil_iff] at hnil
    have hlen := filterMap_length_of_isSome (fun l2 => jlookup l2 "ts")
      (seriesRecords lines k)
      (fun l2 hl2 => validLine_field (hvm l2 (List.mem_of_mem_filter hl2))
        (by simp [candleFields]))
    rw [hnil] at hlen
    exact hrecne (List.length_eq_zero.mp hlen.symm)

/-- C3 witness: the theorem applied to a concrete three-record stream with
pair ids 3, 7, 3. -/
theorem candles_key_set_c3_witness :
    w3_lines.all validLine = true ∧
    (get_ohlcv_candles "https://tradingstrategy.ai/api/"
        [PairId.pint 3, PairId.pint 7] "2024-01-01" "2024-02-01" "15m" 250000000
        (fun _ => HttpResult.ok 200 w3_lines) = .ok (candleOutput w3_lines) ∧
    keysOf (candleOutput w3_lines) = dedupFirst (pVals w3_lines) ∧
    (keysOf (candleOutput w3_lines)).Nodup ∧
    (∀ k, k ∈ keysOf (candleOutput w3_lines) ↔
      ∃ rec ∈ w3_lines, jlookup rec "p" = some k) ∧
    ∀ e ∈ candleOutput w3_lines, e.2.index ≠ []) :=
  ⟨by decide,
    candles_key_set_c3 "https://tradingstrategy.ai/api/"
      [PairId.pint 3, PairId.pint 7] "2024-01-01" "2024-02-01" "15m" 250000000
      (fun _ => HttpResult.ok 200 w3_lines) 200 w3_lines rfl (by decide)⟩

/-- C4: a stream containing a line without the `p` field makes
`get_ohlcv_candles` raise (`KeyError("p")` from line 146) rather than drop the
line; the error result carries no fragment of a collection. -/
theorem candles_missing_p_raises_c4 (api_url : String) (pair_ids : List PairId)
    (start_time end_time time_bucket : String) (max_bytes : Nat)
    (transport : GetRequest → HttpResult) (status : Nat) (lines : List JObj)
    (htr : transport (candles_request api_url pair_ids start_time end_time
      time_bucket max_bytes) = HttpResult.ok status lines)
    (hmiss : ∃ rec ∈ lines, jlookup rec "p" = none) :
    get_ohlcv_candles api_url pair_ids start_time end_time time_bucket max_bytes
      transport = .error (PyErr.keyError "p") := by
  rw [get_ohlcv_candles, htr]
  show get_ohlcv_candles_lines lines = _
  unfold get_ohlcv_candles_lines
  rw [groupLoop_err lines [] hmiss]
  rfl

/-- C4 witness: the theorem applied to a concrete stream whose second line is
missing the `p` field. -/
theorem candles_missing_p_raises_c4_witness :
    (∃ rec ∈ w4_lines, jlookup rec "p" = none) ∧
    get_ohlcv_candles "https://tradingstrategy.ai/api/" [PairId.pint 1]
      "2024-01-01" "2024-02-01" "15m" 250000000
      (fun _ => HttpResult.ok 200 w4_lines) = .error (PyErr.keyError "p") :=
  ⟨by decide,
    candles_missing_p_raises_c4 "https://tradingstrategy.ai/api/" [PairId.pint 1]
      "2024-01-01" "2024-02-01" "15m" 250000000
      (fun _ => HttpResult.ok 200 w4_lines) 200 w4_lines rfl (by decide)⟩

/-- C8: for every chains response array whose objects carry the three read
fields, the table `get_chain_data` returns has one row per input object, and
the row at each position carries exactly that object's `chain_id` index,
`chain_name` and `chain_slug` — no cross-contamination between rows. -/
theorem chains_table_c8 (chains : List JObj) (hv : chains.all validChain = true) :
    get_chain_data chains = .ok (chainOutput chains) ∧
    (chainOutput chains).index.length = chains.length ∧
    (chainOutput chains).name.length = chains.length ∧
    (chainOutput chains).slug.length = chains.length ∧
    ∀ i, i < chains.length → ∃ ch, chains[i]? = some ch ∧
      (chainOutput chains).index[i]? = jlookup ch "chain_id" ∧
      (chainOutput chains).name[i]? = jlookup ch "chain_name" ∧
      (chainOutput chains).slug[i]? = jlookup ch "chain_slug" := by
  have hvm : ∀ l ∈ chains, validChain l = true := by
    rw [List.all_eq_true] at hv
    exact hv
  have hname : ∀ l ∈ chains, (jlookup l "chain_name").isSome = true :=
    fun l hl => (validChain_fields (hvm l hl)).1
  have hslug : ∀ l ∈ chains, (jlookup l "chain_slug").isSome = true :=
    fun l hl => (validChain_fields (hvm l hl)).2.1
  have hid : ∀ l ∈ chains, (jlookup l "chain_id").isSome = true :=
    fun l hl => (validChain_fields (hvm l hl)).2.2
  refine ⟨get_chain_data_spec chains hv, ?_, ?_, ?_, ?_⟩
  · exact filterMap_length_of_isSome _ _ hid
  · exact filterMap_length_of_isSome _ _ hname
  · exact filterMap_length_of_isSome _ _ hslug
  · intro i hi
    refine ⟨chains[i], List.getElem?_eq_getElem hi, ?_, ?_, ?_⟩
    · show (chains.filterMap (fun l => jlookup l "chain_id"))[i]? = _
      rw [filterMap_getElem?_of_isSome _ _ hid i, List.getElem?_eq_getElem hi]
      rfl
    · show (chains.filterMap (fun l => jlookup l "chain_name"))[i]? = _
      rw [filterMap_getElem?_of_isSome _ _ hname i, List.getElem?_eq_getElem hi]
      rfl
    · show (chains.filterMap (fun l => jlookup l "chain_slug"))[i]? = _
      rw [filterMap_getElem?_of_isSome _ _ hslug i, List.getElem?_eq_getElem hi]
      rfl

/-- C8 witness: the theorem applied to a concrete two-chain response. -/
theorem chains_table_c8_witness :
    w8_chains.all validChain = true ∧
    (get_chain_data w8_chains = .ok (chainOutput w8_chains) ∧
    (chainOutput w8_chains).index.length = w8_chains.length ∧
    (chainOutput w8_chains).name.length = w8_chains.length ∧
    (chainOutput w8_chains).slug.length = w8_chains.length ∧
    ∀ i, i < w8_chains.length → ∃ ch, w8_chains[i]? = some ch ∧
      (chainOutput w8_chains).index[i]? = jlookup ch "chain_id" ∧
      (chainOutput w8_chains).name[i]? = jlookup ch "chain_name" ∧
      (chainOutput w8_chains).slug[i]? = jlookup ch "chain_slug") :=
  ⟨by decide, chains_table_c8 w8_chains (by decide)⟩

/-- C10: the result of the candle parse depends only on the seven fields
`p`, `ts`, `o`, `h`, `l`, `c`, `v` of each response line: two equal-length
streams whose corresponding lines agree on those fields produce identical
results (extra fields are ignored and never affect the output). -/
theorem candles_seven_field_dependence_c10 (lines1 lines2 : List JObj)
    (h : List.Forall₂ agree7 lines1 lines2) :
    get_ohlcv_candles_lines lines1 = get_ohlcv_candles_lines lines2 := by
  have hrel := groupLoop_rel lines1 lines2 h [] [] List.Forall₂.nil
  unfold get_ohlcv_candles_lines
  cases h1 : groupLoop [] lines1 with
  | error e1 =>
    cases h2 : groupLoop [] lines2 with
    | error e2 =>
      rw [h1, h2] at hrel
      have he : e1 = e2 := hrel
      subst he
      rfl
    | ok g2 =>
      rw [h1, h2] at hrel
      exact False.elim hrel
  | ok g1 =>
    cases h2 : groupLoop [] lines2 with
    | error e2 =>
      rw [h1, h2] at hrel
      exact False.elim hrel
    | ok g2 =>
      rw [h1, h2] at hrel
      have hg : groupsRel g1 g2 := hrel
      show materialize g1 = materialize g2
      exact materialize_rel _ _ hg

/-- C10 witness: the theorem applied to two one-record streams, identical on
the seven candle fields, one carrying an extra eighth field. -/
theorem candles_seven_field_dependence_c10_witness :
    List.Forall₂ agree7 w10_lines1 w10_lines2 ∧
    get_ohlcv_candles_lines w10_lines1 = get_ohlcv_candles_lines w10_lines2 :=
  ⟨List.Forall₂.cons (by decide) List.Forall₂.nil,
    candles_seven_field_dependence_c10 w10_lines1 w10_lines2
      (List.Forall₂.cons (by decide) List.Forall₂.nil)⟩
